import Mathlib

/-!
# Verification of the `xtr` enumerate adapter and multiarray alias (extra.h)

A shallow embedding of the C++ header `include/extra.h` (the Extra Library).
The header provides, in namespace `xtr`:

* `enumerate` — an adapter wrapping an iterable together with an index
  counter, yielding `(index, element)` pairs during a ranged-for traversal
  (`detail::enumerator_base`, `detail::enumerator`,
  `detail::indexed_iterator_base`, `detail::indexed_iterator`,
  `detail::begin`/`detail::end`, `xtr::enumerate`);
* `multiarray` — a nested `std::array` alias
  (`detail::multiarray_base`, `xtr::multiarray`);
* type traits used by the adapter (`detail::get_stored_t`,
  `detail::get_index`).

## Embedding choices

Value level: the underlying iterable is modelled as a `List α`.  An
underlying iterator (a traversal position into that list) is modelled as the
suffix of the list starting at that position; the `end` iterator is the
empty suffix, dereference (`*it`) is `List.head?`, and advancement (`++it`)
is `List.tail`.  The index counter (`m_index`, of the template parameter
type `Index`) is modelled as `Nat`: the default `Index` is `std::size_t`
and a traversal of a finite in-memory sequence increments it at most
`length` times, so wrap-around is unreachable and the ideal-integer model
is faithful.  Member functions that can in principle mutate the object
(`operator*` is a non-const member) are modelled as explicit state
transformers returning the updated object.

Type level (for the claims about C++ type computation): C++ types are
modelled by the inductive `CppType` with constructors for lvalue/rvalue
references and `const`, and the standard traits
(`is_reference`, `remove_reference`, `add_rvalue_reference`, `add_const`)
are translated from their standard meaning, including reference collapsing
for `add_rvalue_reference`.
-/

namespace xtr

/-- Translation of `detail::indexed_iterator` (extra.h lines 327–375):
the member `m_iterator` (the wrapped underlying iterator, modelled as the
remaining suffix of the sequence) and the member `m_index` (the counter). -/
structure indexed_iterator (α : Type) : Type where
  m_iterator : List α
  m_index : Nat
deriving DecidableEq, Repr

namespace indexed_iterator

/-- Translation of the `indexed_iterator` constructor (extra.h lines
343–346): stores the given iterator and value-initializes `m_index{}`,
i.e. the counter starts at zero. -/
def construct (it : List α) : indexed_iterator α :=
  { m_iterator := it, m_index := 0 }

/-- Translation of `indexed_iterator::operator++` (extra.h lines 354–358):
`++m_iterator; ++m_index;` — advance the wrapped iterator (tail of the
suffix) and increment the counter, in the same step. -/
def opInc (s : indexed_iterator α) : indexed_iterator α :=
  { m_iterator := s.m_iterator.tail, m_index := s.m_index + 1 }

/-- Translation of `indexed_iterator::operator*` (extra.h lines 371–374):
`return {m_index, *m_iterator};`.  The member function is non-const, so it
is modelled as a state transformer; its body only reads the two members and
builds the tuple, so the returned state is the input state.  Dereferencing
the underlying iterator is `List.head?` of the suffix. -/
def opDeref (s : indexed_iterator α) : (Nat × Option α) × indexed_iterator α :=
  ((s.m_index, s.m_iterator.head?), s)

/-- Translation of `indexed_iterator_base::operator!=` (extra.h lines
320–324): `return m_iterator != end;` — compares the wrapped iterator
against the supplied end sentinel. -/
def opNe [DecidableEq α] (s : indexed_iterator α) (e : List α) : Bool :=
  decide (s.m_iterator ≠ e)

end indexed_iterator

/-- Translation of `detail::enumerator_base` / `detail::enumerator`
(extra.h lines 234–291): the adapter object holding the stored iterable
`m_iterable` (the `enumerator` layer adds only the index type parameter
and compile-time assertions, no further data). -/
structure enumerator (ι : Type) : Type where
  m_iterable : ι
deriving DecidableEq, Repr

/-- Translation of `xtr::enumerate(Iterable &&iterable)` (extra.h lines
451–456): `return {std::forward<Iterable>(iterable)};` — constructs the
adapter storing the iterable. -/
def enumerate (x : ι) : enumerator ι :=
  { m_iterable := x }

/-- Translation of `detail::begin(enumerator<Iterable, Index> &)`
(extra.h lines 394–399): `return {begin(object.m_iterable)};` — an
`indexed_iterator` wrapping the begin position of the stored iterable
(the whole list as suffix), with the counter value-initialized to zero. -/
def begin_enumerator (e : enumerator (List α)) : indexed_iterator α :=
  indexed_iterator.construct e.m_iterable

/-- Translation of `detail::end(enumerator_base<Iterable> &)` (extra.h
lines 410–415): `return end(object.m_iterable);` — the end iterator of
the stored iterable, i.e. the position past the last element, which in
the suffix model is the suffix starting at index `length`. -/
def end_enumerator (e : enumerator (List α)) : List α :=
  e.m_iterable.drop e.m_iterable.length

/-- The ranged-for traversal of the adapter, as specified for C++
range-based for: `auto it = begin(e); auto last = end(e);
while (it != last) { yield *it; ++it; }`.  Since the end sentinel is the
empty suffix, the loop guard `it != last` holds exactly when the wrapped
suffix is non-empty, and the yielded pair is `*it = (m_index, head)`. -/
def traverse (s : indexed_iterator α) : List (Nat × α) :=
  match h : s.m_iterator with
  | [] => []
  | x :: _ => (s.m_index, x) :: traverse s.opInc
termination_by s.m_iterator.length
decreasing_by
  simp [indexed_iterator.opInc, h]

/-- Enumerating a list from the library's entry point: traverse
`xtr::enumerate(xs)` with a ranged-for loop, collecting the pairs. -/
def enumerateList (xs : List α) : List (Nat × α) :=
  traverse (begin_enumerator (enumerate xs))

/-- The traversal loop yields `(i, x₀), (i+1, x₁), …` when started at
counter value `i` over the suffix `xs`. -/
theorem traverse_eq_enumFrom (xs : List α) (i : Nat) :
    traverse { m_iterator := xs, m_index := i } = xs.enumFrom i := by
  induction xs generalizing i with
  | nil =>
    rw [traverse]
    rfl
  | cons x rest ih =>
    rw [traverse]
    simp only [indexed_iterator.opInc, List.tail_cons]
    rw [ih]
    rfl

theorem traverse_eq (s : indexed_iterator α) :
    traverse s = s.m_iterator.enumFrom s.m_index :=
  traverse_eq_enumFrom s.m_iterator s.m_index

theorem enumerateList_eq_enum (xs : List α) :
    enumerateList xs = xs.enum := by
  unfold enumerateList begin_enumerator enumerate indexed_iterator.construct
  exact traverse_eq_enumFrom xs 0

/-- Claim C1: For every finite list of length `N`, traversing the adapter
returned by `xtr::enumerate` yields exactly `N` pairs, whose index
components are `0, 1, …, N-1` in order and whose element components are
the elements in original order; the empty list yields zero pairs, and
`["a","b","c"]` yields `(0,"a"), (1,"b"), (2,"c")` and terminates. -/
theorem enumerate_yields_indexed_pairs (α : Type) (xs : List α) :
    enumerateList xs = (List.range xs.length).zip xs
    ∧ (enumerateList xs).length = xs.length
    ∧ (enumerateList xs).map Prod.fst = List.range xs.length
    ∧ (enumerateList xs).map Prod.snd = xs
    ∧ enumerateList ([] : List α) = []
    ∧ enumerateList ["a", "b", "c"] = [(0, "a"), (1, "b"), (2, "c")] := by
  refine ⟨?_, ?_, ?_, ?_, ?_, ?_⟩
  · rw [enumerateList_eq_enum, List.enum_eq_zip_range]
  · rw [enumerateList_eq_enum, List.enum_length]
  · rw [enumerateList_eq_enum, List.enum_map_fst]
  · rw [enumerateList_eq_enum, List.enum_map_snd]
  · rw [enumerateList_eq_enum]
    rfl
  · rw [enumerateList_eq_enum]
    rfl

/-- Iterating `operator++` `k` times from a given adapter-iterator state:
the state of the traversal after `k` loop iterations. -/
def advance (s : indexed_iterator α) : Nat → indexed_iterator α
  | 0 => s
  | k + 1 => (advance s k).opInc

/-- One iteration of the ranged-for loop body acting on the whole program
state `(enumerator, iterator)`: the only statement mutating state is
`++it` (extra.h lines 354–358), which touches the iterator alone; the
enumerator and its stored iterable are not named by it. -/
def loop_step (p : enumerator (List α) × indexed_iterator α) :
    enumerator (List α) × indexed_iterator α :=
  (p.1, p.2.opInc)

theorem advance_m_index (s : indexed_iterator α) (k : Nat) :
    (advance s k).m_index = s.m_index + k := by
  induction k with
  | zero => rfl
  | succ k ih => simp [advance, indexed_iterator.opInc, ih, Nat.add_assoc]

theorem advance_m_iterator (s : indexed_iterator α) (k : Nat) :
    (advance s k).m_iterator = s.m_iterator.drop k := by
  induction k with
  | zero => rfl
  | succ k ih =>
    simp [advance, indexed_iterator.opInc, ih, List.tail_drop]

/-- Claim C2: The index counter is zero at construction, is incremented by
exactly one on each `operator++` (and left unchanged by `operator*`), is
never reset or decremented; hence after `k` loop iterations over a list
`xs` with `k ≤ xs.length`, the observed index equals the number of pairs
already produced before that step. -/
theorem index_counter_invariant (α : Type) (it : List α) :
    (indexed_iterator.construct it).m_index = 0
    ∧ (∀ s : indexed_iterator α, s.opInc.m_index = s.m_index + 1)
    ∧ (∀ s : indexed_iterator α, s.opDeref.2.m_index = s.m_index)
    ∧ (∀ s : indexed_iterator α, s.m_index ≤ s.opInc.m_index)
    ∧ (∀ (xs : List α) (k : Nat), k ≤ xs.length →
        (advance (indexed_iterator.construct xs) k).m_index
          = ((enumerateList xs).take k).length) := by
  refine ⟨rfl, fun s => rfl, fun s => rfl, fun s => Nat.le_succ _, ?_⟩
  intro xs k hk
  rw [advance_m_index, enumerateList_eq_enum, List.length_take,
    List.enum_length]
  simp [indexed_iterator.construct, Nat.min_eq_left hk]

/-- Claim C3: A single `operator++` advances the wrapped position and
increments the counter in the same step; the loop guard `operator!=`
compares only the wrapped position against the end sentinel of the
wrapped iterable (never the index: its result is invariant under the
index value), and traversal terminates exactly when the wrapped position
compares equal to that sentinel. -/
theorem advance_and_termination (α : Type) [DecidableEq α] (xs : List α) :
    (∀ s : indexed_iterator α, s.opInc.m_iterator = s.m_iterator.tail
      ∧ s.opInc.m_index = s.m_index + 1)
    ∧ (∀ (it e : List α) (i i' : Nat),
        indexed_iterator.opNe { m_iterator := it, m_index := i } e
          = indexed_iterator.opNe { m_iterator := it, m_index := i' } e)
    ∧ (∀ (s : indexed_iterator α) (e : List α),
        s.opNe e = true ↔ s.m_iterator ≠ e)
    ∧ end_enumerator (enumerate xs) = []
    ∧ (∀ s : indexed_iterator α,
        traverse s = [] ↔ s.opNe (end_enumerator (enumerate xs)) = false) := by
  refine ⟨fun s => ⟨rfl, rfl⟩, fun it e i i' => rfl,
    fun s e => by simp [indexed_iterator.opNe], ?_, ?_⟩
  · simp [end_enumerator, enumerate]
  · intro s
    simp only [end_enumerator, enumerate, List.drop_length,
      indexed_iterator.opNe]
    rw [traverse_eq]
    cases h : s.m_iterator <;> simp [List.enumFrom]


/-- Witness for `index_counter_invariant`: its hypothesis `k ≤ xs.length`
discharged at the concrete list `[7, 8]` and `k = 1`. -/
theorem index_counter_invariant_witness :
    1 ≤ ([7, 8] : List Nat).length
    ∧ (advance (indexed_iterator.construct [7, 8]) 1).m_index
        = ((enumerateList [7, 8]).take 1).length :=
  ⟨by decide, (index_counter_invariant Nat [7, 8]).2.2.2.2 [7, 8] 1 (by decide)⟩

/-- Claim C4: Enumeration never alters the underlying elements: the element
component of `operator*` is exactly the dereference of the wrapped
position, the element components of the produced pairs are the list's
elements in original order, and the loop body mutates nothing beyond the
iterator (position and counter): the stored iterable is untouched. -/
theorem enumeration_preserves_elements (α : Type) (xs : List α) :
    (∀ s : indexed_iterator α, s.opDeref.1.2 = s.m_iterator.head?)
    ∧ (enumerateList xs).map Prod.snd = xs
    ∧ (∀ p : enumerator (List α) × indexed_iterator α,
        (loop_step p).1 = p.1)
    ∧ (∀ s : indexed_iterator α, s.opDeref.2 = s)
    ∧ (∀ k : Nat, k < xs.length →
        ((advance (begin_enumerator (enumerate xs)) k).opDeref.1.2
          = xs.get? k)) := by
  refine ⟨fun s => rfl, ?_, fun p => rfl, fun s => rfl, ?_⟩
  · rw [enumerateList_eq_enum]
    exact List.enum_map_snd xs
  · intro k hk
    simp [indexed_iterator.opDeref, advance_m_iterator, begin_enumerator,
      enumerate, indexed_iterator.construct, List.head?_drop,
      List.get?_eq_getElem?]

/-- Witness for `enumeration_preserves_elements`: its hypothesis
`k < xs.length` discharged at the list `[3, 4, 5]` and `k = 2`. -/
theorem enumeration_preserves_elements_witness :
    2 < ([3, 4, 5] : List Nat).length
    ∧ (advance (begin_enumerator (enumerate [3, 4, 5])) 2).opDeref.1.2
        = ([3, 4, 5] : List Nat).get? 2 :=
  ⟨by decide,
    (enumeration_preserves_elements Nat [3, 4, 5]).2.2.2.2 2 (by decide)⟩

/-- Claim C10: `operator*` is repeatable and non-advancing: it returns the
state unchanged (neither counter nor wrapped position is mutated), equal
calls at the same step return the same index value, and the index
component is a copy of the counter's current value, so no number of calls
changes subsequent results. -/
theorem dereference_is_pure (α : Type) :
    (∀ s : indexed_iterator α, s.opDeref.2 = s)
    ∧ (∀ s : indexed_iterator α, s.opDeref.2.m_index = s.m_index
        ∧ s.opDeref.2.m_iterator = s.m_iterator)
    ∧ (∀ s : indexed_iterator α, s.opDeref.2.opDeref.1 = s.opDeref.1)
    ∧ (∀ s : indexed_iterator α, s.opDeref.1.1 = s.m_index) :=
  ⟨fun s => rfl, fun s => ⟨rfl, rfl⟩, fun s => rfl, fun s => rfl⟩

/-!
## Type-level model

`CppType` models the C++ types the header's trait computations operate on:
a base (non-reference, non-const) object type, `std::size_t`, and the
`const`, lvalue-reference and rvalue-reference type constructors.  The
standard traits used by extra.h are translated below, including reference
collapsing for `add_rvalue_reference` and the no-op of `add_const` on
reference types.
-/

/-- Symbolic model of a C++ type, as far as the header's trait
computations inspect it. -/
inductive CppType : Type where
  | size_t : CppType
  | base : Nat → CppType
  | const : CppType → CppType
  | lvalue_ref : CppType → CppType
  | rvalue_ref : CppType → CppType
deriving DecidableEq, Repr

/-- `std::is_lvalue_reference_v`. -/
def is_lvalue_reference : CppType → Bool
  | .lvalue_ref _ => true
  | _ => false

/-- `std::is_rvalue_reference_v`. -/
def is_rvalue_reference : CppType → Bool
  | .rvalue_ref _ => true
  | _ => false

/-- `std::is_reference_v`: lvalue or rvalue reference. -/
def is_reference (t : CppType) : Bool :=
  is_lvalue_reference t || is_rvalue_reference t

/-- `std::remove_reference_t`. -/
def remove_reference : CppType → CppType
  | .lvalue_ref t => t
  | .rvalue_ref t => t
  | t => t

/-- `std::add_rvalue_reference_t`, with reference collapsing:
`T& &&` is `T&`, `T&& &&` is `T&&`, otherwise `T&&`. -/
def add_rvalue_reference : CppType → CppType
  | .lvalue_ref t => .lvalue_ref t
  | .rvalue_ref t => .rvalue_ref t
  | t => .rvalue_ref t

/-- `std::add_const_t`: a no-op on reference types, `const T` otherwise
(re-applying `const` is also a no-op). -/
def add_const : CppType → CppType
  | .lvalue_ref t => .lvalue_ref t
  | .rvalue_ref t => .rvalue_ref t
  | .const t => .const t
  | t => .const t

/-- `std::remove_const_t`. -/
def remove_const : CppType → CppType
  | .const t => t
  | t => t

/-- Translation of `detail::get_stored_t` (extra.h lines 231–232):
`std::conditional_t<std::is_rvalue_reference_v<T>,
std::remove_reference_t<T>, T>` — rvalue references are stored by value
(ownership), anything else (in use: lvalue references) is stored as is. -/
def get_stored_t (t : CppType) : CppType :=
  if is_rvalue_reference t then remove_reference t else t

/-- What the header's SFINAE can see of an `Iterable` template argument:
whether the class named by `remove_reference_t<Iterable>` declares a
member type `size_type`, and which type that member names. -/
structure IterableTypeInfo : Type where
  size_type : Option CppType
deriving DecidableEq, Repr

/-- Translation of `detail::get_index` / `detail::get_index_t` (extra.h
lines 418–429): the primary template yields `std::size_t`; the partial
specialization, enabled by
`std::void_t<typename std::remove_reference_t<Iterable>::size_type>`,
yields that declared `size_type` member. -/
def get_index_t (it : IterableTypeInfo) : CppType :=
  match it.size_type with
  | some t => t
  | none => CppType.size_t

/-- The `Index` template argument of `xtr::enumerate` (extra.h lines 451,
458): the explicitly supplied type when one is given, otherwise the
default `detail::get_index_t<Iterable>`. -/
def enumerate_index_type (explicitIndex : Option CppType)
    (it : IterableTypeInfo) : CppType :=
  match explicitIndex with
  | some t => t
  | none => get_index_t it

/-- The first component type of
`indexed_iterator::dereference_result_type` (extra.h lines 361–363):
`std::add_const_t<index_type>` — the index half of each produced pair. -/
def dereference_index_component_type (index_type : CppType) : CppType :=
  add_const index_type

/-- Claim C5: An explicitly supplied index type is used as is; when omitted,
the index type is the wrapped iterable's declared `size_type` member when
present and `std::size_t` otherwise; and the index component of each
produced pair carries that chosen type (const-qualified by
`dereference_result_type`). -/
theorem index_type_selection :
    (∀ (t : CppType) (it : IterableTypeInfo),
      enumerate_index_type (some t) it = t)
    ∧ (∀ (it : IterableTypeInfo) (st : CppType), it.size_type = some st →
        enumerate_index_type none it = st)
    ∧ (∀ it : IterableTypeInfo, it.size_type = none →
        enumerate_index_type none it = CppType.size_t)
    ∧ (∀ idx : CppType, is_reference idx = false →
        dereference_index_component_type idx = CppType.const (remove_const idx)
        ∧ remove_const (dereference_index_component_type idx)
            = remove_const idx) := by
  refine ⟨fun t it => rfl, ?_, ?_, ?_⟩
  · intro it st h
    simp [enumerate_index_type, get_index_t, h]
  · intro it h
    simp [enumerate_index_type, get_index_t, h]
  · intro idx h
    cases idx <;> simp_all [is_reference, is_lvalue_reference,
      is_rvalue_reference, dereference_index_component_type, add_const,
      remove_const]

/-- Witness for `index_type_selection`: its hypotheses discharged at the
concrete iterable infos with and without a `size_type` member, and at the
non-reference index type `std::size_t`. -/
theorem index_type_selection_witness :
    (({ size_type := some (CppType.base 32) } : IterableTypeInfo).size_type
        = some (CppType.base 32)
      ∧ enumerate_index_type none { size_type := some (CppType.base 32) }
        = CppType.base 32)
    ∧ (({ size_type := none } : IterableTypeInfo).size_type = none
      ∧ enumerate_index_type none { size_type := none } = CppType.size_t)
    ∧ (is_reference CppType.size_t = false
      ∧ dereference_index_component_type CppType.size_t
          = CppType.const (remove_const CppType.size_t)
      ∧ remove_const (dereference_index_component_type CppType.size_t)
          = remove_const CppType.size_t) :=
  ⟨⟨rfl, index_type_selection.2.1 { size_type := some (CppType.base 32) }
      (CppType.base 32) rfl⟩,
    ⟨rfl, index_type_selection.2.2.1 { size_type := none } rfl⟩,
    ⟨rfl, index_type_selection.2.2.2 CppType.size_t rfl⟩⟩

/-- Claim C6: Value category decides ownership.  `xtr::enumerate` stores
`get_stored_t<add_rvalue_reference_t<Iterable>>`: for a temporary
(`Iterable` deduced as the object type `t`) the stored type is `t` itself
— the iterable is moved in and owned by the adapter for its lifetime; for
a named lvalue (`Iterable` deduced as `t&`, collapsing to `t&`) the stored
type is the reference `t&` — no copy, the caller retains ownership.  At
the value level the constructed adapter stores exactly the forwarded
iterable. -/
theorem ownership_by_value_category (t : CppType)
    (h : is_reference t = false) :
    get_stored_t (add_rvalue_reference t) = t
    ∧ is_reference (get_stored_t (add_rvalue_reference t)) = false
    ∧ get_stored_t (add_rvalue_reference (CppType.lvalue_ref t))
        = CppType.lvalue_ref t
    ∧ is_lvalue_reference
        (get_stored_t (add_rvalue_reference (CppType.lvalue_ref t))) = true
    ∧ (∀ (ι : Type) (x : ι), (enumerate x).m_iterable = x) := by
  refine ⟨?_, ?_, rfl, rfl, fun ι x => rfl⟩ <;>
    cases t <;> simp_all [is_reference, is_lvalue_reference,
      is_rvalue_reference, add_rvalue_reference, get_stored_t,
      remove_reference]

/-- Witness for `ownership_by_value_category`: its hypothesis discharged
at a concrete non-reference object type. -/
theorem ownership_by_value_category_witness :
    is_reference (CppType.base 0) = false
    ∧ get_stored_t (add_rvalue_reference (CppType.base 0))
        = CppType.base 0 :=
  ⟨rfl, (ownership_by_value_category (CppType.base 0) rfl).1⟩

/-- Translation of the variadic `enumerator_base` constructor (extra.h
lines 253–261): `m_iterable{std::forward<Parameters>(parameters)...}` —
the stored iterable is direct-initialized from the forwarded argument
list, modelled by applying the iterable's constructor `ctor` to the
argument tuple. -/
def enumerator_base_variadic_init (ctor : π → ι) (params : π) : ι :=
  ctor params

/-- Translation of the variadic `enumerator` constructor (extra.h lines
287–290): forwards the argument list unchanged to the `enumerator_base`
constructor. -/
def enumerator_variadic_init (ctor : π → ι) (params : π) : ι :=
  enumerator_base_variadic_init ctor params

/-- Translation of the variadic `xtr::enumerate` overload (extra.h lines
458–463): `return {std::forward<Parameters>(parameters)...};` — the
adapter whose stored iterable is constructed in place from the forwarded
arguments. -/
def enumerate_variadic (ctor : π → ι) (params : π) : enumerator ι :=
  { m_iterable := enumerator_variadic_init ctor params }

/-- Claim C7: The variadic overload forwards its arguments through the
`enumerator` and `enumerator_base` constructors directly to the wrapped
iterable's constructor: the stored iterable equals the iterable
constructed from those arguments, the resulting adapter equals the one
wrapping that directly constructed iterable, and traversing it enumerates
exactly that iterable. -/
theorem variadic_forwarding (π ι : Type) (ctor : π → ι) (params : π) :
    (enumerate_variadic ctor params).m_iterable = ctor params
    ∧ enumerate_variadic ctor params = enumerate (ctor params)
    ∧ (∀ (α : Type) (lctor : π → List α),
        traverse (begin_enumerator (enumerate_variadic lctor params))
          = enumerateList (lctor params)) :=
  ⟨rfl, rfl, fun α lctor => rfl⟩

/-- The `static_assert` of `enumerator_base` (extra.h line 239):
`is_reference_v<iterable_type>` must hold. -/
def enumerator_base_assertion (iterable_type : CppType) : Bool :=
  is_reference iterable_type

/-- The `static_assert` of `enumerator` (extra.h line 270), combined with
the one of its base `enumerator_base` (line 239), which the same
instantiation also triggers: the iterable type must be a reference and
the index type must not be. -/
def enumerator_instantiation_ok (iterable_type index_type : CppType) : Bool :=
  enumerator_base_assertion iterable_type && !(is_reference index_type)

/-- The `static_assert` of `indexed_iterator_base` (extra.h line 298):
`is_reference_v<iterator_type>` must hold. -/
def indexed_iterator_base_assertion (iterator_type : CppType) : Bool :=
  is_reference iterator_type

/-- The `static_assert` of `indexed_iterator` (extra.h line 333), combined
with the one of its base `indexed_iterator_base` (line 298): the iterator
type must be a reference and the index type must not be. -/
def indexed_iterator_instantiation_ok
    (iterator_type index_type : CppType) : Bool :=
  indexed_iterator_base_assertion iterator_type && !(is_reference index_type)

/-- Claim C8: All error detection is at compile time: an instantiation is
rejected exactly when the index type is a reference or the stored
iterable/iterator type lacks the required reference category; the types
the entry points actually instantiate with (`add_rvalue_reference_t` of
the deduced argument) always satisfy the storage-category requirement, so
under the precondition that the index type is not a reference no
assertion fires. -/
theorem compile_time_error_model (t idx : CppType)
    (h : is_reference idx = false) :
    (∀ it ix : CppType, enumerator_instantiation_ok it ix = true
      ↔ (is_reference it = true ∧ is_reference ix = false))
    ∧ (∀ it ix : CppType, indexed_iterator_instantiation_ok it ix = true
      ↔ (is_reference it = true ∧ is_reference ix = false))
    ∧ enumerator_base_assertion (add_rvalue_reference t) = true
    ∧ indexed_iterator_base_assertion (add_rvalue_reference t) = true
    ∧ enumerator_instantiation_ok (add_rvalue_reference t) idx = true
    ∧ indexed_iterator_instantiation_ok (add_rvalue_reference t) idx = true := by
  have hadd : is_reference (add_rvalue_reference t) = true := by
    cases t <;> simp [add_rvalue_reference, is_reference,
      is_lvalue_reference, is_rvalue_reference]
  refine ⟨?_, ?_, hadd, hadd, ?_, ?_⟩
  · intro it ix
    simp [enumerator_instantiation_ok, enumerator_base_assertion]
  · intro it ix
    simp [indexed_iterator_instantiation_ok, indexed_iterator_base_assertion]
  · simp [enumerator_instantiation_ok, enumerator_base_assertion, hadd, h]
  · simp [indexed_iterator_instantiation_ok,
      indexed_iterator_base_assertion, hadd, h]

/-- Witness for `compile_time_error_model`: its hypothesis discharged at
the non-reference index type and a concrete object iterable type. -/
theorem compile_time_error_model_witness :
    is_reference CppType.size_t = false
    ∧ enumerator_instantiation_ok
        (add_rvalue_reference (CppType.base 0)) CppType.size_t = true :=
  ⟨rfl, (compile_time_error_model (CppType.base 0) CppType.size_t
    rfl).2.2.2.2.1⟩

/-- Model of `std::array<T, N>`: a function from the `N` valid positions
to elements. -/
def std_array (T : Type) (N : Nat) : Type :=
  Fin N → T

/-- Translation of `detail::multiarray_base` (extra.h lines 203–212): the
primary template defines `nested = multiarray_base<Type, J...>::type` and
`type = std::array<nested, I>`; the specialization for an empty extent
pack defines `type = std::array<Type, I>`. -/
def multiarray_base (T : Type) (I : Nat) : List Nat → Type
  | [] => std_array T I
  | j :: rest => std_array (multiarray_base T j rest) I

/-- Translation of `xtr::multiarray` (extra.h lines 216–217):
`typename detail::multiarray_base<Type, I, J...>::type`. -/
def multiarray (T : Type) (I : Nat) (J : List Nat) : Type :=
  multiarray_base T I J

/-- Modelled from the spec claim's words, for comparison with the source
translation `multiarray`: the nested `std::array` type with the first
extent outermost. -/
def nested_std_array (T : Type) : List Nat → Type
  | [] => T
  | d :: rest => std_array (nested_std_array T rest) d

theorem multiarray_base_eq_nested (T : Type) (J : List Nat) :
    ∀ I : Nat, multiarray_base T I J = nested_std_array T (I :: J) := by
  induction J with
  | nil => intro I; rfl
  | cons j rest ih =>
    intro I
    show std_array (multiarray_base T j rest) I
      = std_array (nested_std_array T (j :: rest)) I
    rw [ih j]

/-- Claim C9: For every element type and non-empty extent list, the alias
`xtr::multiarray` is the nested `std::array` type with the first extent
outermost: `multiarray<T, N>` is `std::array<T, N>`, and
`multiarray<T, I, J...>` is `std::array<multiarray<T, J...>, I>`. -/
theorem multiarray_is_nested_array (T : Type) (I : Nat) (J : List Nat) :
    multiarray T I J = nested_std_array T (I :: J)
    ∧ (∀ N : Nat, multiarray T N [] = std_array T N)
    ∧ (∀ (j : Nat) (rest : List Nat),
        multiarray T I (j :: rest) = std_array (multiarray T j rest) I) :=
  ⟨multiarray_base_eq_nested T J I, fun N => rfl, fun j rest => rfl⟩

end xtr
